import Mathlib

/-!
Verification development for the access-control service
(`app/plate_recognizer.py`, `app/face_service.py`, `app/routes/access.py`).

The Python code is shallowly embedded as executable Lean definitions:

* Pure string/number helpers are translated directly.
* External collaborators (OpenCV decoding, Tesseract OCR, the
  `face_recognition` feature extractor, the camera) are oracles: an image
  value is represented by the outputs those collaborators produce for it
  (`ImageData` carries the OCR text of each candidate plate region, the OCR
  text of the whole image, and the face embedding, if any).
* Database rows are plain lists; SQLAlchemy `select ... where` queries become
  `List.filter` with the same conditions, `.first()` becomes `.head?` and
  `.scalar_one_or_none()` becomes `scalarOneOrNone` (see its docstring).
* Python floats are modelled as exact rationals.  Because `Rat.add`/`mul`/...
  are `@[irreducible]` here, the embedded code computes with the equivalent
  `mkRat`-based operations `qadd`/`qsub`/`qmul`/`qle`/`qlt`, each proved equal
  to the standard `ℚ` operation, so that concrete runs reduce in the kernel.
* `face_recognition.face_distance` is the Euclidean norm of the difference;
  since only comparisons of distances ever matter, the embedded matcher
  carries the squared distance (`distanceSq`) and compares squares, which is
  proved equivalent to comparing the real square roots
  (`sqLe_iff_sqrt_le`, `qlt_iff_sqrt_lt`).
-/

/-! ## Exact rational arithmetic that reduces in the kernel -/

/-- Multiplication on `ℚ`, written with `mkRat` so that the kernel can
evaluate it (`Rat.mul` is irreducible); equals `a * b` by `qmul_eq`. -/
def qmul (a b : ℚ) : ℚ := mkRat (a.num * b.num) (a.den * b.den)

/-- Addition on `ℚ` that the kernel can evaluate; equals `a + b`. -/
def qadd (a b : ℚ) : ℚ := mkRat (a.num * b.den + b.num * a.den) (a.den * b.den)

/-- Subtraction on `ℚ` that the kernel can evaluate; equals `a - b`. -/
def qsub (a b : ℚ) : ℚ := mkRat (a.num * b.den - b.num * a.den) (a.den * b.den)

/-- Boolean `a ≤ b` on `ℚ` that the kernel can evaluate. -/
def qle (a b : ℚ) : Bool := a.num * b.den ≤ b.num * a.den

/-- Boolean `a < b` on `ℚ` that the kernel can evaluate. -/
def qlt (a b : ℚ) : Bool := a.num * b.den < b.num * a.den

/-- `10 ^ n` on `ℤ` by structural recursion. -/
def pow10 : Nat → Int
  | 0 => 1
  | n + 1 => 10 * pow10 n

/-- `10 ^ n` on `ℕ` by structural recursion. -/
def pow10N : Nat → Nat
  | 0 => 1
  | n + 1 => 10 * pow10N n

/-- `a * 10 ^ ex` for an integer exponent, kernel-evaluable. -/
def qshift (a : ℚ) : Int → ℚ
  | Int.ofNat n => qmul a (mkRat (pow10 n) 1)
  | Int.negSucc n => mkRat a.num (a.den * pow10N (n + 1))

/-! ## Plate text normalizer and classifier (`app/plate_recognizer.py`) -/

/-- Character class `[A-Z]`. -/
def isUpperAlpha (c : Char) : Bool := 65 ≤ c.toNat && c.toNat ≤ 90

/-- Character class `[0-9]`. -/
def isDigit (c : Char) : Bool := 48 ≤ c.toNat && c.toNat ≤ 57

/-- Character class `[A-Za-z0-9]` of the normalizer's regex. -/
def isAsciiAlphaNum (c : Char) : Bool :=
  (65 ≤ c.toNat && c.toNat ≤ 90) || (97 ≤ c.toNat && c.toNat ≤ 122) ||
    (48 ≤ c.toNat && c.toNat ≤ 57)

/-- `_normalize_plate_text`: `re.sub(r"[^A-Za-z0-9]", "", text).upper()` —
keep only ASCII letters and digits, then uppercase (all kept characters are
ASCII, so Python `str.upper` agrees with `Char.toUpper` on them). -/
def normalize_plate_text (text : String) : String :=
  String.mk ((text.data.filter isAsciiAlphaNum).map Char.toUpper)

/-- Matching a list of characters against a list of single-character
classes: the anchored regexes `^...$` of the recognizer. -/
def charsMatch : List (Char → Bool) → List Char → Bool
  | [], [] => true
  | p :: ps, c :: cs => p c && charsMatch ps cs
  | _, _ => false

/-- `OLD_PLATE_RE`: `^[A-Z]{3}[0-9]{4}$`. -/
def matchesOldPlate (s : String) : Bool :=
  charsMatch [isUpperAlpha, isUpperAlpha, isUpperAlpha, isDigit, isDigit, isDigit, isDigit]
    s.data

/-- `MERCOSUL_PLATE_RE`: `^[A-Z]{3}[0-9][A-Z][0-9]{2}$`. -/
def matchesMercosulPlate (s : String) : Bool :=
  charsMatch [isUpperAlpha, isUpperAlpha, isUpperAlpha, isDigit, isUpperAlpha, isDigit, isDigit]
    s.data

/-- `_classify_plate`. -/
def classify_plate (normalized : String) : String :=
  if normalized.length == 7 && matchesMercosulPlate normalized then "mercosul"
  else if normalized.length == 7 && matchesOldPlate normalized then "old"
  else if normalized.length == 7 then "mercosul"
  else "unknown"

/-- `_format_display`: the old format renders as `normalized[:3] + "-" +
normalized[3:7]`, everything else as `normalized[:7]` (or unchanged when
shorter than 7). -/
def format_display (normalized : String) (format_type : String) : String :=
  if format_type == "old" && decide (7 ≤ normalized.length) then
    String.mk (normalized.data.take 3) ++ "-" ++ String.mk ((normalized.data.drop 3).take 4)
  else if decide (7 ≤ normalized.length) then String.mk (normalized.data.take 7)
  else normalized

/-- `PlateResult` (the `roi` field, an image fragment never read by the
decision logic, is omitted). -/
structure PlateResult where
  raw_text : String
  normalized : String
  format_type : String
  confidence : ℚ
  deriving DecidableEq

/-- The `PlateResult` built from one OCR text in `recognize_plate_from_image`:
`text` is already normalized there, and `normalized` holds the display form. -/
def mkPlateResult (t : String) (conf : ℚ) : PlateResult :=
  let text := normalize_plate_text t
  { raw_text := text
    normalized := format_display text (classify_plate text)
    format_type := classify_plate text
    confidence := conf }

/-- One loop iteration of `recognize_plate_from_image` over a candidate
region's OCR text: keep the result when the normalized text has length ≥ 6
and (`best is None or len(text) >= len(best.raw_text)`). -/
def selStep (best : Option PlateResult) (t : String) : Option PlateResult :=
  let text := normalize_plate_text t
  if decide (6 ≤ text.length) then
    let result := mkPlateResult t (mkRat 8 10)
    match best with
    | none => some result
    | some b => if decide (b.raw_text.length ≤ text.length) then some result else some b
  else best

/-- `recognize_plate_from_image`, as a function of the OCR oracle's outputs:
`roiTexts` are the raw texts OCR yields for the candidate plate regions (the
region detector orders them by bounding-box area, largest first, at most 5),
`fullText` the raw text OCR yields for the whole image (the fallback, taken at
confidence 0.5 instead of 0.8, only when no candidate qualified).  Python's
`.strip()` before normalization is subsumed by the normalization itself. -/
def recognize_plate_from_image (roiTexts : List String) (fullText : String) :
    Option PlateResult :=
  match roiTexts.foldl selStep none with
  | some b => some b
  | none =>
    let text := normalize_plate_text fullText
    if decide (6 ≤ text.length) then some (mkPlateResult fullText (mkRat 1 2))
    else none

/-! ## Face service (`app/face_service.py`) -/

/-- Python `str.split` on a single-character separator (`"".split(",") = [""]`). -/
def splitOnChar (sep : Char) : List Char → List (List Char)
  | [] => [[]]
  | c :: cs =>
    match splitOnChar sep cs with
    | h :: t => if c = sep then [] :: h :: t else (c :: h) :: t
    | [] => if c = sep then [[], []] else [[c]]

/-- Numeric value of a digit string. -/
def digitsToNat (cs : List Char) : Nat := cs.foldl (fun n c => n * 10 + (c.toNat - 48)) 0

/-- Leading `+`/`-` sign of a number literal. -/
def parseSign : List Char → Int × List Char
  | '-' :: cs => (-1, cs)
  | '+' :: cs => (1, cs)
  | cs => (1, cs)

/-- Whitespace accepted around a Python float literal. -/
def isSpace (c : Char) : Bool := c = ' ' || c = '\t' || c = '\n' || c = '\r'

/-- Mantissa of a float literal: digits with at most one decimal point and
at least one digit overall (`"1."`, `".5"` parse; `"."`, `""` do not). -/
def parseMantissa (cs : List Char) : Option ℚ :=
  match splitOnChar '.' cs with
  | [a] => if a.length != 0 && a.all isDigit then some ((digitsToNat a : Int) : ℚ) else none
  | [a, b] =>
    if (a.length + b.length != 0) && a.all isDigit && b.all isDigit then
      some (mkRat (digitsToNat (a ++ b) : Int) (pow10N b.length))
    else none
  | _ => none

/-- Exponent part of a float literal (after `e`): optional sign, digits. -/
def parseExp (cs : List Char) : Option Int :=
  let (sg, ds) := parseSign cs
  if ds.length != 0 && ds.all isDigit then some (sg * (digitsToNat ds : Int)) else none

/-- Python `float(x)` on the decimal-literal subset that matters here
(optional surrounding whitespace, optional sign, digits with an optional
decimal point, optional `e`/`E` exponent); `none` models the `ValueError`
the source catches.  Special spellings such as `inf`/`nan` are not modelled —
they cannot occur in stored embeddings. -/
def parseFloat (cs : List Char) : Option ℚ :=
  let trimmed := ((cs.dropWhile isSpace).reverse.dropWhile isSpace).reverse
  let (sg, body) := parseSign trimmed
  match splitOnChar 'e' (body.map Char.toLower) with
  | [m] => (parseMantissa m).map (fun q => qmul ((sg : ℚ)) q)
  | [m, e] =>
    match parseMantissa m, parseExp e with
    | some q, some ex => some (qshift (qmul ((sg : ℚ)) q) ex)
    | _, _ => none
  | _ => none

/-- `_str_to_embedding`: `[float(x) for x in s.split(",")]`; `none` models
the exception raised on the first malformed component. -/
def str_to_embedding (s : String) : Option (List ℚ) :=
  let rec parseAll : List (List Char) → Option (List ℚ)
    | [] => some []
    | t :: ts =>
      match parseFloat t, parseAll ts with
      | some q, some qs => some (q :: qs)
      | _, _ => none
  parseAll (splitOnChar ',' s.data)

/-- `FaceMatch`.  The source stores the Euclidean distance; the embedding
stores its square `distanceSq` (the source's `distance` is
`Real.sqrt distanceSq`), because only comparisons of distances are ever made
and comparing squares is equivalent (`sqLe_iff_sqrt_le`, `qlt_iff_sqrt_lt`). -/
structure FaceMatch where
  person_id : Nat
  name : String
  distanceSq : ℚ
  matched : Bool
  deriving DecidableEq

/-- Squared Euclidean distance between two embeddings, computed with the
kernel-evaluable rational operations. -/
def distSq : List ℚ → List ℚ → ℚ
  | x :: xs, y :: ys => qadd (qmul (qsub x y) (qsub x y)) (distSq xs ys)
  | _, _ => 0

/-- Squared Euclidean distance written with the standard `ℚ` operations;
equal to `distSq` by `distSq_eq_eucSq`. -/
def eucSq : List ℚ → List ℚ → ℚ
  | x :: xs, y :: ys => (x - y) ^ 2 + eucSq xs ys
  | _, _ => 0

/-- The source's `dist <= tolerance` on Euclidean distances, decided on the
squared distance: `√d2 ≤ tol ↔ 0 ≤ tol ∧ d2 ≤ tol²` (`sqLe_iff_sqrt_le`). -/
def sqLe (d2 tol : ℚ) : Bool := qle 0 tol && qle d2 (qmul tol tol)

/-- One loop iteration of `compare_face_to_embeddings`: skip the row when its
stored embedding string does not decode (the source's `try/except: continue`),
otherwise keep it as `best` when `dist <= tolerance and (best is None or
dist < best.distance)`. -/
def faceStep (embedding : List ℚ) (tolerance : ℚ) (best : Option FaceMatch)
    (row : Nat × String × String) : Option FaceMatch :=
  match str_to_embedding row.2.2 with
  | none => best
  | some stored =>
    let d2 := distSq stored embedding
    if sqLe d2 tolerance &&
        (match best with | none => true | some b => qlt d2 b.distanceSq) then
      some { person_id := row.1, name := row.2.1, distanceSq := d2, matched := true }
    else best

/-- `compare_face_to_embeddings` over rows `(person_id, name, embedding_str)`. -/
def compare_face_to_embeddings (embedding : List ℚ)
    (stored_embeddings : List (Nat × String × String)) (tolerance : ℚ) :
    Option FaceMatch :=
  stored_embeddings.foldl (faceStep embedding tolerance) none

/-! ## Data model (`app/models.py`; columns the access logic never reads —
documents, photo paths, timestamps, the authorization primary key — are
omitted) -/

/-- Row of `persons`. -/
structure Person where
  id : Nat
  name : String
  face_embedding : Option String
  is_active : Bool
  deriving DecidableEq

/-- Row of `vehicles`; `plate` carries a UNIQUE constraint in the schema. -/
structure Vehicle where
  id : Nat
  plate : String
  is_active : Bool
  deriving DecidableEq

/-- Row of `authorizations`: `vehicle_id = null` is the pedestrian mode,
`person_id = null` the vehicle-only mode, both set the person+vehicle mode. -/
structure Authorization where
  person_id : Option Nat
  vehicle_id : Option Nat
  is_active : Bool
  deriving DecidableEq

/-- The database visible to one request. -/
structure DB where
  persons : List Person
  vehicles : List Vehicle
  authorizations : List Authorization
  deriving DecidableEq

/-- The schema constraint the access queries rely on: vehicle plates are
unique (`plate = Column(..., unique=True, ...)`). -/
def DB.WellFormed (db : DB) : Prop := (db.vehicles.map Vehicle.plate).Nodup

instance (db : DB) : Decidable db.WellFormed :=
  inferInstanceAs (Decidable (db.vehicles.map Vehicle.plate).Nodup)

/-- SQLAlchemy `.scalar_one_or_none()`: the row when exactly one matched,
`none` when none did.  On two or more rows SQLAlchemy raises
`MultipleResultsFound`; every query this model feeds here filters on the
unique `plate` column, so under `DB.WellFormed` that branch is unreachable
and is mapped to `none`. -/
def scalarOneOrNone : List α → Option α
  | [x] => some x
  | _ => none

/-! ## Access routes (`app/routes/access.py`) -/

/-- The outputs the external collaborators produce for one decoded image:
OCR text per candidate plate region, OCR text of the whole image, and the
face embedding `embedding_from_image` extracts (`none` = no face found). -/
structure ImageData where
  roiTexts : List String
  fullText : String
  faceEmbedding : Option (List ℚ)
  deriving DecidableEq

/-- An uploaded file as `check_access` inspects it: absent (`File(None)` or an
empty filename), present with empty content, present but not decodable by
`cv2.imdecode`, or decoded. -/
inductive ImageUpload where
  | missing
  | empty
  | undecodable
  | decoded (img : ImageData)
  deriving DecidableEq

/-- `AccessCheckResponse` (`app/schemas.py`). -/
structure AccessCheckResponse where
  allowed : Bool
  person_id : Option Nat
  person_name : Option String
  vehicle_plate : Option String
  vehicle_authorized : Option Bool
  message : String
  deriving DecidableEq

/-- Python truthiness of an optional string (`None` and `""` are falsy). -/
def truthyStr : Option String → Bool
  | some s => s != ""
  | none => false

/-- Step 1 of `check_access` (lines 47–63): recognize the plate, look the
normalized reading up among active vehicles, note `Veículo não autorizado.`
when none matches.  Yields `(vehicle_plate, vehicle_authorized, notes)`. -/
def platePhase (db : DB) (plate_image : ImageUpload) :
    Option String × Option Bool × List String :=
  match plate_image with
  | ImageUpload.decoded img =>
    match recognize_plate_from_image img.roiTexts img.fullText with
    | some result =>
      if result.normalized != "" then
        let vehicle_plate := result.normalized
        let v := scalarOneOrNone (db.vehicles.filter
          (fun v => v.plate == vehicle_plate && v.is_active))
        let vehicle_authorized := v.isSome
        (some vehicle_plate, some vehicle_authorized,
          if vehicle_authorized then [] else ["Veículo não autorizado."])
      else (none, none, [])
    | none => (none, none, [])
  | _ => (none, none, [])

/-- The gallery query of step 2 (lines 74–80): active persons with a stored
embedding that is neither NULL nor empty, as `(id, name, embedding_str)` rows;
the Python re-filter `if r[2]` is kept. -/
def galleryRows (db : DB) : List (Nat × String × String) :=
  ((db.persons.filter
      (fun p => p.is_active && p.face_embedding.isSome && p.face_embedding != some "")).map
    (fun p => (p.id, p.name, p.face_embedding.getD ""))).filter
    (fun r => r.2.2 != "")

/-- Step 2 of `check_access` (lines 65–94): extract the embedding, scan the
gallery, note the applicable message.  An undecodable face image falls
through silently (the source has no `else` on `if img is not None`).
Yields `(person_id, person_name, notes)`. -/
def facePhase (db : DB) (face_tolerance : ℚ) (face_image : ImageUpload) :
    Option Nat × Option String × List String :=
  match face_image with
  | ImageUpload.missing => (none, none, ["Envie face_image para verificar pessoa."])
  | ImageUpload.empty => (none, none, ["Imagem do rosto vazia."])
  | ImageUpload.undecodable => (none, none, [])
  | ImageUpload.decoded img =>
    match img.faceEmbedding with
    | none => (none, none, ["Nenhum rosto detectado."])
    | some embedding =>
      match compare_face_to_embeddings embedding (galleryRows db) face_tolerance with
      | some m => (some m.person_id, some m.name, [])
      | none => (none, none, ["Pessoa não reconhecida."])

/-- Query of step 3a: active authorizations of `pid` with `vehicle_id` NULL. -/
def pedAuthQuery (db : DB) (pid : Nat) : List Authorization :=
  db.authorizations.filter
    (fun a => a.person_id == some pid && a.is_active && a.vehicle_id == none)

/-- Step 3a (`.first() is not None`). -/
def pedCheck (db : DB) (pid : Nat) : Bool := (pedAuthQuery db pid).head?.isSome

/-- Query of step 3b: active authorizations of `pid` with `vehicle_id` set. -/
def personVehicleAuths (db : DB) (pid : Nat) : List Authorization :=
  db.authorizations.filter
    (fun a => a.person_id == some pid && a.is_active && a.vehicle_id != none)

/-- Step 3b: the vehicles of the person's own vehicle-linked records, matched
against the reading by plate.  Note: this query — unlike every other vehicle
query in the file — does not filter on `Vehicle.is_active`. -/
def personVehicleCheck (db : DB) (pid : Nat) (vp : String) : Bool :=
  let vehicle_ids := (personVehicleAuths db pid).filterMap Authorization.vehicle_id
  if vehicle_ids != [] then
    (scalarOneOrNone (db.vehicles.filter
      (fun v => v.plate == vp && vehicle_ids.contains v.id))).isSome
  else false

/-- The active vehicle carrying `plate` (steps 1 and 3c). -/
def activeVehicleByPlate (db : DB) (plate : String) : Option Vehicle :=
  scalarOneOrNone (db.vehicles.filter (fun v => v.plate == plate && v.is_active))

/-- Query inside step 3c: active vehicle-only records for vehicle `vid`. -/
def vehicleOnlyAuthQuery (db : DB) (vid : Nat) : List Authorization :=
  db.authorizations.filter
    (fun a => a.person_id == none && a.vehicle_id == some vid && a.is_active)

/-- Step 3c. -/
def vehicleOnlyCheck (db : DB) (vp : String) : Bool :=
  match activeVehicleByPlate db vp with
  | some v => (vehicleOnlyAuthQuery db v.id).head?.isSome
  | none => false

/-- Guard+body of step 3a: `person_id is not None` and the pedestrian query. -/
def pedGate (db : DB) : Option Nat → Bool
  | some pid => pedCheck db pid
  | none => false

/-- Guard+body of step 3b: `person_id is not None and vehicle_plate is not
None` and the person+vehicle query. -/
def pvGate (db : DB) : Option Nat → Option String → Bool
  | some pid, some vp => personVehicleCheck db pid vp
  | _, _ => false

/-- Body of step 3c once its guard held. -/
def vehicleOnlyGate (db : DB) : Option String → Bool
  | some vp => vehicleOnlyCheck db vp
  | none => false

/-- Step 3 of `check_access` (lines 96–134): the guarded assignments
`if not allowed and ...` make an ordered first-match-wins chain —
pedestrian, then person+vehicle (both guards are `is not None`), then
vehicle-only (guard is Python truthiness of `vehicle_plate` and
`vehicle_authorized`). -/
def policyPhase (db : DB) (person_id : Option Nat) (vehicle_plate : Option String)
    (vehicle_authorized : Option Bool) : Bool :=
  if pedGate db person_id then true
  else if pvGate db person_id vehicle_plate then true
  else if truthyStr vehicle_plate && (vehicle_authorized == some true) then
    vehicleOnlyGate db vehicle_plate
  else false

/-- Fallback single message of `check_access` (lines 136–144), used only when
no note was accumulated and the request was denied. -/
def fallbackMessage (person_id : Option Nat) (vehicle_plate : Option String)
    (vehicle_authorized : Option Bool) : String :=
  if person_id == none && !truthyStr vehicle_plate then
    "Envie face_image (e opcionalmente plate_image) para verificação."
  else if person_id != none then "Pessoa sem autorização de entrada a pé."
  else if truthyStr vehicle_plate && (vehicle_authorized == some true) then
    "Placa sem autorização (só veículo)."
  else "Rosto ou placa não reconhecidos."

/-- `check_access` (`POST /access/check`): the whole upload handler.  It never
raises: every partial failure only accumulates notes and the request always
produces an `AccessCheckResponse`. -/
def check_access (db : DB) (face_tolerance : ℚ)
    (plate_image face_image : ImageUpload) : AccessCheckResponse :=
  let pr := platePhase db plate_image
  let fr := facePhase db face_tolerance face_image
  let vehicle_plate := pr.1
  let vehicle_authorized := pr.2.1
  let person_id := fr.1
  let person_name := fr.2.1
  let allowed := policyPhase db person_id vehicle_plate vehicle_authorized
  let parts0 := pr.2.2 ++ fr.2.2
  let message_parts :=
    if !allowed && parts0 == [] then
      [fallbackMessage person_id vehicle_plate vehicle_authorized]
    else parts0
  let message :=
    if allowed then "Acesso autorizado."
    else if message_parts != [] then String.intercalate " " message_parts
    else "Acesso negado."
  { allowed := allowed, person_id := person_id, person_name := person_name,
    vehicle_plate := vehicle_plate, vehicle_authorized := vehicle_authorized,
    message := message }

/-- The camera as `check_access_from_camera` sees it: not opening, failing to
deliver the first frame, or delivering a plate frame and possibly a second
(face) frame. -/
inductive CameraState where
  | closed
  | noFrame
  | frames (frame1 : ImageData) (frame2 : Option ImageData)
  deriving DecidableEq

/-- Python truthiness of an optional integer (`None` and `0` are falsy). -/
def truthyNat : Option Nat → Bool
  | some n => n != 0
  | none => false

/-- Guard+body of the camera variant's step 3a (`if person_id:`). -/
def pedGateCam (db : DB) : Option Nat → Bool
  | some pid => (pid != 0) && pedCheck db pid
  | none => false

/-- Guard+body of the camera variant's step 3b (`person_id and
vehicle_plate` — Python truthiness of both). -/
def pvGateCam (db : DB) : Option Nat → Option String → Bool
  | some pid, some vp => (pid != 0) && (vp != "") && personVehicleCheck db pid vp
  | _, _ => false

/-- Step 3 of `check_access_from_camera` (lines 222–257): same queries as the
upload variant but with Python-truthiness guards (`if person_id:`,
`if ... person_id and vehicle_plate:`). -/
def policyPhaseCamera (db : DB) (person_id : Option Nat) (vehicle_plate : Option String)
    (vehicle_authorized : Option Bool) : Bool :=
  if pedGateCam db person_id then true
  else if pvGateCam db person_id vehicle_plate then true
  else if truthyStr vehicle_plate && (vehicle_authorized == some true) then
    vehicleOnlyGate db vehicle_plate
  else false

/-- Fallback message chain of the camera variant (lines 258–266); note it
tests `person_name` truthiness in the first branch and `person_id` in the
second. -/
def fallbackMessageCamera (person_id : Option Nat) (person_name : Option String)
    (vehicle_plate : Option String) (vehicle_authorized : Option Bool) : String :=
  if !truthyStr vehicle_plate && !truthyStr person_name then
    "Placa e rosto não identificados."
  else if truthyNat person_id then
    "Pessoa sem autorização de entrada a pé."
  else if truthyStr vehicle_plate && (vehicle_authorized == some true) then
    "Veículo sem autorização (só placa)."
  else "Rosto ou placa não reconhecidos."

/-- `check_access_from_camera` (`POST /access/check/camera`).  The two
`HTTPException(503)` paths are the `Except.error` cases; past them the
handler mirrors the upload variant, reading the plate from frame 1 and the
face from frame 2 (or frame 1 when no second frame arrived). -/
def check_access_from_camera (db : DB) (face_tolerance : ℚ) (cam : CameraState) :
    Except String AccessCheckResponse :=
  match cam with
  | CameraState.closed =>
    Except.error "Câmera não disponível. Use /access/check com upload de imagens."
  | CameraState.noFrame => Except.error "Falha ao capturar frame da câmera."
  | CameraState.frames frame1 frame2 =>
    let plate_frame := frame1
    let face_frame := frame2.getD frame1
    let vehicle_plate :=
      match recognize_plate_from_image plate_frame.roiTexts plate_frame.fullText with
      | some r => if r.normalized != "" then some r.normalized else none
      | none => none
    let vehicle_authorized :=
      if truthyStr vehicle_plate then
        match vehicle_plate with
        | some vp => some (activeVehicleByPlate db vp).isSome
        | none => none
      else none
    let fm :=
      match face_frame.faceEmbedding with
      | some embedding => compare_face_to_embeddings embedding (galleryRows db) face_tolerance
      | none => none
    let person_id := fm.map FaceMatch.person_id
    let person_name := fm.map FaceMatch.name
    let allowed := policyPhaseCamera db person_id vehicle_plate vehicle_authorized
    let message_parts :=
      if !allowed then
        [fallbackMessageCamera person_id person_name vehicle_plate vehicle_authorized]
      else ([] : List String)
    let message :=
      if allowed then "Acesso autorizado."
      else if message_parts != [] then String.intercalate " " message_parts
      else "Acesso negado."
    let resp : AccessCheckResponse :=
      { allowed := allowed, person_id := person_id, person_name := person_name,
        vehicle_plate := vehicle_plate, vehicle_authorized := vehicle_authorized,
        message := message }
    Except.ok resp

/-! ## Basic lemmas -/

instance : DecidableEq (Except String AccessCheckResponse)
  | Except.ok a, Except.ok b =>
    if h : a = b then Decidable.isTrue (by rw [h])
    else Decidable.isFalse (fun hh => h (Except.ok.inj hh))
  | Except.error a, Except.error b =>
    if h : a = b then Decidable.isTrue (by rw [h])
    else Decidable.isFalse (fun hh => h (Except.error.inj hh))
  | Except.ok _, Except.error _ => Decidable.isFalse (fun hh => Except.noConfusion hh)
  | Except.error _, Except.ok _ => Decidable.isFalse (fun hh => Except.noConfusion hh)

theorem qmul_eq (a b : ℚ) : qmul a b = a * b := by
  rw [qmul, Rat.mul_def, Rat.normalize_eq_mkRat]

theorem qadd_eq (a b : ℚ) : qadd a b = a + b := by
  rw [qadd, Rat.add_def']

theorem qsub_eq (a b : ℚ) : qsub a b = a - b := by
  rw [qsub, Rat.sub_def']

theorem qle_iff (a b : ℚ) : qle a b = true ↔ a ≤ b := by
  rw [qle, decide_eq_true_eq, Rat.le_def]

theorem qlt_iff (a b : ℚ) : qlt a b = true ↔ a < b := by
  rw [qlt, decide_eq_true_eq, Rat.lt_def]

theorem distSq_eq_eucSq (a b : List ℚ) : distSq a b = eucSq a b := by
  induction a generalizing b with
  | nil => cases b <;> rfl
  | cons x xs ih =>
    cases b with
    | nil => rfl
    | cons y ys =>
      rw [distSq, eucSq, qadd_eq, qmul_eq, qsub_eq, ih, sq]

theorem eucSq_nonneg (a b : List ℚ) : 0 ≤ eucSq a b := by
  induction a generalizing b with
  | nil => cases b <;> simp [eucSq]
  | cons x xs ih =>
    cases b with
    | nil => simp [eucSq]
    | cons y ys => exact add_nonneg (sq_nonneg _) (ih ys)

/-- The comparison the matcher makes on squared distances agrees with the
source's comparison `dist <= tolerance` on Euclidean distances. -/
theorem sqLe_iff_sqrt_le (d2 tol : ℚ) (h : 0 ≤ d2) :
    sqLe d2 tol = true ↔ Real.sqrt (d2 : ℝ) ≤ (tol : ℝ) := by
  rw [sqLe, Bool.and_eq_true, qle_iff, qle_iff, qmul_eq]
  constructor
  · rintro ⟨h1, h2⟩
    have h2' : (d2 : ℝ) ≤ (tol : ℝ) ^ 2 := by
      have hq : d2 ≤ tol ^ 2 := by rw [sq]; exact h2
      exact_mod_cast hq
    have h3 : Real.sqrt (d2 : ℝ) ≤ Real.sqrt ((tol : ℝ) ^ 2) := Real.sqrt_le_sqrt h2'
    rwa [Real.sqrt_sq (by exact_mod_cast h1)] at h3
  · intro hle
    have h1 : (0 : ℝ) ≤ (tol : ℝ) := le_trans (Real.sqrt_nonneg _) hle
    refine ⟨by exact_mod_cast h1, ?_⟩
    have h2 : (Real.sqrt (d2 : ℝ)) ^ 2 ≤ (tol : ℝ) ^ 2 :=
      pow_le_pow_left₀ (Real.sqrt_nonneg _) hle 2
    rw [Real.sq_sqrt (by exact_mod_cast h : (0 : ℝ) ≤ (d2 : ℝ))] at h2
    have hq : d2 ≤ tol ^ 2 := by exact_mod_cast h2
    rw [sq] at hq
    exact hq

/-- The strict comparison the matcher makes on squared distances agrees with
the source's `dist < best.distance` on Euclidean distances. -/
theorem qlt_iff_sqrt_lt (a b : ℚ) (ha : 0 ≤ a) :
    qlt a b = true ↔ Real.sqrt (a : ℝ) < Real.sqrt (b : ℝ) := by
  rw [qlt_iff]
  constructor
  · intro hab
    exact Real.sqrt_lt_sqrt (by exact_mod_cast ha) (by exact_mod_cast hab)
  · intro hlt
    by_contra hc
    push_neg at hc
    have : Real.sqrt (b : ℝ) ≤ Real.sqrt (a : ℝ) := Real.sqrt_le_sqrt (by exact_mod_cast hc)
    exact absurd hlt (not_lt.mpr this)

/-- Uppercase letters and digits are disjoint character classes. -/
theorem not_upper_and_digit (c : Char) : ¬(isUpperAlpha c = true ∧ isDigit c = true) := by
  rintro ⟨h1, h2⟩
  rw [isUpperAlpha] at h1
  rw [isDigit] at h2
  simp only [Bool.and_eq_true, decide_eq_true_eq] at h1 h2
  omega

/-- A string cannot match both plate regexes: position 4 is a digit in the
old format and a letter in the Mercosul format. -/
theorem old_not_mercosul {s : String} (hold : matchesOldPlate s = true) :
    matchesMercosulPlate s = false := by
  obtain ⟨l⟩ := s
  rw [matchesOldPlate] at hold
  rw [matchesMercosulPlate]
  simp only [String.data] at hold ⊢
  cases l with
  | nil => simp [charsMatch] at hold
  | cons a l1 =>
  cases l1 with
  | nil => simp [charsMatch] at hold
  | cons b l2 =>
  cases l2 with
  | nil => simp [charsMatch] at hold
  | cons c l3 =>
  cases l3 with
  | nil => simp [charsMatch] at hold
  | cons d l4 =>
  cases l4 with
  | nil => simp [charsMatch] at hold
  | cons e l5 =>
    simp only [charsMatch, Bool.and_eq_true] at hold
    have he : isDigit e = true := hold.2.2.2.2.1
    have hu : isUpperAlpha e = false := by
      cases hcases : isUpperAlpha e
      · rfl
      · exact absurd ⟨hcases, he⟩ (not_upper_and_digit e)
    simp [charsMatch, hu]

/-- C7: `_classify_plate` returns `old` exactly on 7-character strings of
shape 3 letters + 4 digits, `mercosul` on every other 7-character string
(whether or not it matches the Mercosul shape), and `unknown` on every other
length.  The Mercosul regex is tested first in the source, but the two
shapes are disjoint (`old_not_mercosul`), so the order cannot mask `old`. -/
theorem classify_plate_spec (s : String) :
    (s.length = 7 → matchesOldPlate s = true → classify_plate s = "old") ∧
    (s.length = 7 → matchesMercosulPlate s = true → classify_plate s = "mercosul") ∧
    (s.length = 7 → matchesOldPlate s = false → matchesMercosulPlate s = false →
      classify_plate s = "mercosul") ∧
    (s.length ≠ 7 → classify_plate s = "unknown") := by
  refine ⟨?_, ?_, ?_, ?_⟩
  · intro h7 hold
    rw [classify_plate]
    simp [h7, hold, old_not_mercosul hold]
  · intro h7 hm
    rw [classify_plate]
    simp [h7, hm]
  · intro h7 hold hm
    rw [classify_plate]
    simp [h7, hold, hm]
  · intro h7
    rw [classify_plate]
    simp [h7]

/-- A row whose stored embedding string does not decode leaves the scan
state untouched (the `except: continue`). -/
theorem faceStep_skip (embedding : List ℚ) (tolerance : ℚ) (best : Option FaceMatch)
    (row : Nat × String × String) (h : str_to_embedding row.2.2 = none) :
    faceStep embedding tolerance best row = best := by
  rw [faceStep, h]

/-- The gallery fold only ever sees the rows whose embedding decodes. -/
theorem foldl_faceStep_filter (embedding : List ℚ) (tolerance : ℚ) :
    ∀ (stored : List (Nat × String × String)) (best : Option FaceMatch),
      stored.foldl (faceStep embedding tolerance) best =
        (stored.filter (fun r => (str_to_embedding r.2.2).isSome)).foldl
          (faceStep embedding tolerance) best := by
  intro stored
  induction stored with
  | nil => intro best; rfl
  | cons r rest ih =>
    intro best
    cases hd : str_to_embedding r.2.2 with
    | none =>
      rw [List.foldl_cons, List.filter_cons, faceStep_skip _ _ _ _ hd]
      have : ((str_to_embedding r.2.2).isSome = true) = False := by simp [hd]
      simp only [hd, Option.isSome_none, Bool.false_eq_true, if_false]
      exact ih best
    | some st =>
      rw [List.foldl_cons, List.filter_cons]
      simp only [hd, Option.isSome_some, if_true, List.foldl_cons]
      exact ih _

/-- C9: the face matcher's result on a gallery equals its result on the
subsequence of rows whose stored embedding string decodes, in order: a
malformed stored embedding is skipped silently and never fails the scan. -/
theorem compare_face_skips_undecodable (embedding : List ℚ) (tolerance : ℚ)
    (stored : List (Nat × String × String)) :
    compare_face_to_embeddings embedding stored tolerance =
      compare_face_to_embeddings embedding
        (stored.filter (fun r => (str_to_embedding r.2.2).isSome)) tolerance :=
  foldl_faceStep_filter embedding tolerance stored none

/-- C10: whenever either access-check variant decides `allowed = true`, the
response message is exactly `Acesso autorizado.` — notes accumulated from
partial failures earlier in the request are dropped from an allowed
decision. -/
theorem allowed_message_exact (db : DB) (tol : ℚ) (pi fi : ImageUpload) (cam : CameraState) :
    ((check_access db tol pi fi).allowed = true →
      (check_access db tol pi fi).message = "Acesso autorizado.") ∧
    (∀ resp, check_access_from_camera db tol cam = Except.ok resp →
      resp.allowed = true → resp.message = "Acesso autorizado.") := by
  constructor
  · intro h
    simp only [check_access] at h ⊢
    simp [h]
  · intro resp heq hallow
    cases cam with
    | closed => simp [check_access_from_camera] at heq
    | noFrame => simp [check_access_from_camera] at heq
    | frames f1 f2 =>
      simp only [check_access_from_camera] at heq
      injection heq with heq
      subst heq
      simp only at hallow ⊢
      rw [hallow]
      simp

/-- A filtered query's `.first() is not None` means some row satisfies it. -/
theorem filter_head_isSome {α : Type} (p : α → Bool) (l : List α) :
    ((l.filter p).head?).isSome = true ↔ ∃ a ∈ l, p a = true := by
  cases hf : l.filter p with
  | nil =>
    simp only [List.head?_nil, Option.isSome_none, Bool.false_eq_true, false_iff]
    rintro ⟨a, ha, hpa⟩
    rw [List.filter_eq_nil_iff] at hf
    exact hf a ha hpa
  | cons b t =>
    simp only [List.head?_cons, Option.isSome_some, true_iff]
    have hb : b ∈ l.filter p := by rw [hf]; exact List.mem_cons_self b t
    rw [List.mem_filter] at hb
    exact ⟨b, hb.1, hb.2⟩

/-- C2: whenever the upload handler's face scan matched person `pid` and an
active pedestrian record (`person_id = pid`, `vehicle_id` NULL) exists, the
decision is allowed, whatever the plate reading and whatever any vehicle's
registration or authorization state: the pedestrian check runs first and the
later checks are guarded by `not allowed`. -/
theorem pedestrian_check_wins (db : DB) (tol : ℚ) (pi fi : ImageUpload) (pid : Nat)
    (hmatch : (check_access db tol pi fi).person_id = some pid)
    (hped : ∃ a ∈ db.authorizations,
      a.person_id = some pid ∧ a.vehicle_id = none ∧ a.is_active = true) :
    (check_access db tol pi fi).allowed = true ∧
    (check_access db tol pi fi).message = "Acesso autorizado." := by
  have hfr : (facePhase db tol fi).1 = some pid := by
    simpa only [check_access] using hmatch
  have hchk : pedCheck db pid = true := by
    rw [pedCheck, pedAuthQuery, filter_head_isSome]
    obtain ⟨a, ha, h1, h2, h3⟩ := hped
    exact ⟨a, ha, by simp [h1, h2, h3]⟩
  have hpol : policyPhase db (facePhase db tol fi).1 (platePhase db pi).1
      (platePhase db pi).2.1 = true := by
    simp [policyPhase, hfr, pedGate, hchk]
  constructor
  · simpa only [check_access] using hpol
  · simp only [check_access]
    simp [hpol]

/-- Concrete database for `pedestrian_check_wins_witness`: one active person
with a stored embedding, an active pedestrian authorization, and an inactive
vehicle whose plate the request reads (showing the plate has no effect). -/
def dbC2 : DB :=
  { persons := [{ id := 1, name := "Ana", face_embedding := some "0", is_active := true }],
    vehicles := [{ id := 1, plate := "ZZZ9Z99", is_active := false }],
    authorizations := [{ person_id := some 1, vehicle_id := none, is_active := true }] }

/-- Witness for C2 at a concrete input (face matches person 1 at distance 0,
plate reads an unregistered-for-entry plate). -/
theorem pedestrian_check_wins_witness :
    (check_access dbC2 1
      (ImageUpload.decoded { roiTexts := ["ZZZ9Z99"], fullText := "", faceEmbedding := none })
      (ImageUpload.decoded { roiTexts := [], fullText := "", faceEmbedding := some [0] })).allowed
        = true ∧
    (check_access dbC2 1
      (ImageUpload.decoded { roiTexts := ["ZZZ9Z99"], fullText := "", faceEmbedding := none })
      (ImageUpload.decoded { roiTexts := [], fullText := "", faceEmbedding := some [0] })).message
        = "Acesso autorizado." :=
  pedestrian_check_wins dbC2 1
    (ImageUpload.decoded { roiTexts := ["ZZZ9Z99"], fullText := "", faceEmbedding := none })
    (ImageUpload.decoded { roiTexts := [], fullText := "", faceEmbedding := some [0] })
    1 (by decide) (by decide)

/-- Database for the C8 counterexample: an active person with a pedestrian
authorization, so that the policy phase can demonstrably run (and even
allow) on a request whose plate image is undecodable. -/
def dbC8 : DB :=
  { persons := [{ id := 1, name := "Ana", face_embedding := some "0", is_active := true }],
    vehicles := [],
    authorizations := [{ person_id := some 1, vehicle_id := none, is_active := true }] }

/-- C8 counterexample: a request with an undecodable plate image is not
rejected — the policy checks still run and here even allow the request; and
a request whose face image is empty gets a normal denial response carrying
the note `Imagem do rosto vazia.`, not a request-validation error. -/
theorem invalid_image_not_rejected :
    (check_access dbC8 1 ImageUpload.undecodable
      (ImageUpload.decoded { roiTexts := [], fullText := "", faceEmbedding := some [0] })).allowed
      = true ∧
    check_access dbC8 1 ImageUpload.undecodable ImageUpload.empty =
      { allowed := false, person_id := none, person_name := none, vehicle_plate := none,
        vehicle_authorized := none, message := "Imagem do rosto vazia." } := by decide

/-- C8 amended: an empty or undecodable image is treated as an absent input,
not rejected: an undecodable or empty plate image behaves exactly like no
plate image, and with an empty (or undecodable) face image the policy phase
still runs on whatever the plate side identified. -/
theorem invalid_image_treated_as_absent (db : DB) (tol : ℚ) (fi pi : ImageUpload) :
    check_access db tol ImageUpload.undecodable fi =
      check_access db tol ImageUpload.missing fi ∧
    check_access db tol ImageUpload.empty fi =
      check_access db tol ImageUpload.missing fi ∧
    (check_access db tol pi ImageUpload.empty).allowed =
      policyPhase db none (platePhase db pi).1 (platePhase db pi).2.1 ∧
    (check_access db tol pi ImageUpload.undecodable).allowed =
      policyPhase db none (platePhase db pi).1 (platePhase db pi).2.1 :=
  ⟨rfl, rfl, rfl, rfl⟩

/-- In a list of vehicles with pairwise-distinct plates, the filter on an
active member's plate and activity returns exactly that member. -/
theorem activeFilter_eq_singleton (l : List Vehicle) (v : Vehicle)
    (hnd : (l.map Vehicle.plate).Nodup) (hv : v ∈ l) (hact : v.is_active = true) :
    l.filter (fun w => w.plate == v.plate && w.is_active) = [v] := by
  induction l with
  | nil => cases hv
  | cons h t ih =>
    rw [List.map_cons, List.nodup_cons] at hnd
    rcases List.mem_cons.mp hv with rfl | hvt
    · rw [List.filter_cons, if_pos (by simp [hact])]
      have ht : t.filter (fun w => w.plate == v.plate && w.is_active) = [] := by
        rw [List.filter_eq_nil_iff]
        intro w hw hpw
        simp only [Bool.and_eq_true, beq_iff_eq] at hpw
        exact hnd.1 (hpw.1 ▸ List.mem_map_of_mem Vehicle.plate hw)
      rw [ht]
    · rw [List.filter_cons]
      have hne : h.plate ≠ v.plate := by
        intro he
        exact hnd.1 (he ▸ List.mem_map_of_mem Vehicle.plate hvt)
      rw [if_neg (by simp [hne])]
      exact ih hnd.2 hvt

/-- Database for the C3 counterexample: the stored plate is `XYZ7788`, the
uppercase non-hyphenated 7-character normalization of the old-format reading
`xyz-7788`, on an active vehicle. -/
def dbC3 : DB :=
  { persons := [],
    vehicles := [{ id := 1, plate := "XYZ7788", is_active := true }],
    authorizations := [] }

/-- C3 counterexample: the reading `xyz-7788` normalizes to exactly the
stored plate `XYZ7788` of an active vehicle, yet the lookup fails
(`vehicle_authorized = false`), because the orchestrator compares stored
plates against the display form, which hyphenates an old-format reading to
`XYZ-7788`. -/
theorem old_plate_reading_not_resolved :
    normalize_plate_text "xyz-7788" = "XYZ7788" ∧
    matchesOldPlate "XYZ7788" = true ∧
    dbC3.vehicles = [{ id := 1, plate := "XYZ7788", is_active := true }] ∧
    (check_access dbC3 1
      (ImageUpload.decoded { roiTexts := ["xyz-7788"], fullText := "", faceEmbedding := none })
      ImageUpload.missing).vehicle_plate = some "XYZ-7788" ∧
    (check_access dbC3 1
      (ImageUpload.decoded { roiTexts := ["xyz-7788"], fullText := "", faceEmbedding := none })
      ImageUpload.missing).vehicle_authorized = some false := by decide

/-- C3 amended: the orchestrator's vehicle lookup compares stored plates
bit-for-bit against the reading's display-formatted text (`result.normalized`),
so a reading resolves to an active vehicle `v` exactly when `v.plate` equals
that display text — for an old-format reading the display text carries a
hyphen, so an active vehicle storing the non-hyphenated normalization is not
resolved (see `old_plate_reading_not_resolved`). -/
theorem plate_lookup_matches_display (db : DB) (tol : ℚ) (img : ImageData)
    (fi : ImageUpload) (v : Vehicle)
    (hwf : db.WellFormed) (hv : v ∈ db.vehicles) (hact : v.is_active = true)
    (hplate : (recognize_plate_from_image img.roiTexts img.fullText).map
      PlateResult.normalized = some v.plate)
    (hne : v.plate ≠ "") :
    (check_access db tol (ImageUpload.decoded img) fi).vehicle_plate = some v.plate ∧
    (check_access db tol (ImageUpload.decoded img) fi).vehicle_authorized = some true := by
  obtain ⟨r, hr, hrn⟩ : ∃ r, recognize_plate_from_image img.roiTexts img.fullText = some r ∧
      r.normalized = v.plate := by
    cases hrec : recognize_plate_from_image img.roiTexts img.fullText with
    | none => rw [hrec] at hplate; cases hplate
    | some r =>
      rw [hrec] at hplate
      exact ⟨r, rfl, by simpa using hplate⟩
  have hpp : platePhase db (ImageUpload.decoded img) = (some v.plate, some true, []) := by
    have hvone : scalarOneOrNone
        (db.vehicles.filter (fun w => w.plate == v.plate && w.is_active)) = some v := by
      rw [DB.WellFormed] at hwf
      rw [activeFilter_eq_singleton db.vehicles v hwf hv hact]
      rfl
    simp [platePhase, hr, hrn, hne, hvone]
  constructor
  · simp only [check_access, hpp]
  · simp only [check_access, hpp]

/-- Witness for C3 (amended) at a concrete input: a Mercosul-format reading,
whose display form is the bare normalized text, resolves to the active
vehicle storing it. -/
theorem plate_lookup_matches_display_witness :
    (check_access
      { persons := [], vehicles := [{ id := 1, plate := "ABC1D23", is_active := true }],
        authorizations := [] } 1
      (ImageUpload.decoded { roiTexts := ["ABC1D23"], fullText := "", faceEmbedding := none })
      ImageUpload.missing).vehicle_plate = some "ABC1D23" ∧
    (check_access
      { persons := [], vehicles := [{ id := 1, plate := "ABC1D23", is_active := true }],
        authorizations := [] } 1
      (ImageUpload.decoded { roiTexts := ["ABC1D23"], fullText := "", faceEmbedding := none })
      ImageUpload.missing).vehicle_authorized = some true := by
  have h := plate_lookup_matches_display
    { persons := [], vehicles := [{ id := 1, plate := "ABC1D23", is_active := true }],
      authorizations := [] } 1
    { roiTexts := ["ABC1D23"], fullText := "", faceEmbedding := none }
    ImageUpload.missing
    { id := 1, plate := "ABC1D23", is_active := true }
    (by decide) (by decide) (by decide) (by decide) (by decide)
  exact h

/-- C4 counterexample: a request whose plate reading resolves to no active
vehicle and whose face matches nobody is denied with the two partial-failure
notes concatenated into one message — two distinct reason strings, not one
chosen by priority. -/
theorem denial_reasons_combined :
    (check_access { persons := [], vehicles := [], authorizations := [] } 1
      (ImageUpload.decoded { roiTexts := ["ABC1D23"], fullText := "", faceEmbedding := none })
      (ImageUpload.decoded { roiTexts := [], fullText := "", faceEmbedding := some [0] })).allowed
      = false ∧
    (check_access { persons := [], vehicles := [], authorizations := [] } 1
      (ImageUpload.decoded { roiTexts := ["ABC1D23"], fullText := "", faceEmbedding := none })
      (ImageUpload.decoded { roiTexts := [], fullText := "", faceEmbedding := some [0] })).message
      = "Veículo não autorizado. Pessoa não reconhecida." := by decide

/-- C4 amended: a denied request's message is the space-separated
concatenation of every partial-failure note accumulated during the request,
in accumulation order (plate note first, then face notes); the
single-message priority chain (`fallbackMessage`) applies only when no note
was accumulated. -/
theorem denial_message_concatenation (db : DB) (tol : ℚ) (pi fi : ImageUpload)
    (hden : (check_access db tol pi fi).allowed = false) :
    (check_access db tol pi fi).message =
      String.intercalate " "
        (if ((platePhase db pi).2.2 ++ (facePhase db tol fi).2.2) == [] then
          [fallbackMessage (facePhase db tol fi).1 (platePhase db pi).1 (platePhase db pi).2.1]
        else (platePhase db pi).2.2 ++ (facePhase db tol fi).2.2) := by
  simp only [check_access] at hden ⊢
  rw [hden]
  cases h0 : ((platePhase db pi).2.2 ++ (facePhase db tol fi).2.2) == [] with
  | true => simp
  | false => simp [h0, List.isEmpty_iff, bne]

/-- Witness for C4 (amended) at a concrete denied input: no images at all,
so the only note is the face phase's `Envie face_image ...` prompt. -/
theorem denial_message_concatenation_witness :
    (check_access { persons := [], vehicles := [], authorizations := [] } 1
      ImageUpload.missing ImageUpload.missing).message =
      String.intercalate " "
        (if ((platePhase { persons := [], vehicles := [], authorizations := [] }
              ImageUpload.missing).2.2 ++
            (facePhase { persons := [], vehicles := [], authorizations := [] } 1
              ImageUpload.missing).2.2) == [] then
          [fallbackMessage
            (facePhase { persons := [], vehicles := [], authorizations := [] } 1
              ImageUpload.missing).1
            (platePhase { persons := [], vehicles := [], authorizations := [] }
              ImageUpload.missing).1
            (platePhase { persons := [], vehicles := [], authorizations := [] }
              ImageUpload.missing).2.1]
        else (platePhase { persons := [], vehicles := [], authorizations := [] }
              ImageUpload.missing).2.2 ++
            (facePhase { persons := [], vehicles := [], authorizations := [] } 1
              ImageUpload.missing).2.2) :=
  denial_message_concatenation { persons := [], vehicles := [], authorizations := [] } 1
    ImageUpload.missing ImageUpload.missing (by decide)

/-- Database for the C1 finding: the only vehicle is INACTIVE (soft-deleted)
but an active authorization still links person 1 to it, and person 1 has no
pedestrian record. -/
def dbC1 : DB :=
  { persons := [{ id := 1, name := "Ana", face_embedding := some "0", is_active := true }],
    vehicles := [{ id := 1, plate := "ABC1D23", is_active := false }],
    authorizations := [{ person_id := some 1, vehicle_id := some 1, is_active := true }] }

/-- C1: the person+vehicle check grants access through an inactive vehicle.
Step 1 itself reports the very same vehicle as unauthorized
(`vehicle_authorized = false`, note the message priority drops that note on
allow), yet step 3b allows, because its vehicle query — alone among the
file's vehicle queries — omits the `Vehicle.is_active` filter. -/
theorem person_vehicle_check_ignores_vehicle_state :
    (check_access dbC1 1
      (ImageUpload.decoded { roiTexts := ["ABC1D23"], fullText := "", faceEmbedding := none })
      (ImageUpload.decoded { roiTexts := [], fullText := "", faceEmbedding := some [0] })) =
      { allowed := true, person_id := some 1, person_name := some "Ana",
        vehicle_plate := some "ABC1D23", vehicle_authorized := some false,
        message := "Acesso autorizado." } ∧
    (∀ v ∈ dbC1.vehicles, v.is_active = false) := by decide

/-- A candidate region's OCR text qualifies when its normalization has
length at least 6. -/
def QualifiesOCR (t : String) : Prop := 6 ≤ (normalize_plate_text t).length

instance : DecidablePred QualifiesOCR :=
  fun t => inferInstanceAs (Decidable (6 ≤ (normalize_plate_text t).length))

theorem mkPlateResult_raw (t : String) (c : ℚ) :
    (mkPlateResult t c).raw_text = normalize_plate_text t := rfl

theorem selStep_none_qual (x : String) (hq : QualifiesOCR x) :
    selStep none x = some (mkPlateResult x (mkRat 8 10)) := by
  rw [QualifiesOCR] at hq
  simp [selStep, hq]

theorem selStep_not_qual (best : Option PlateResult) (x : String) (hq : ¬QualifiesOCR x) :
    selStep best x = best := by
  rw [QualifiesOCR] at hq
  simp [selStep, hq]

theorem selStep_some_replace (b : PlateResult) (x : String) (hq : QualifiesOCR x)
    (hle : b.raw_text.length ≤ (normalize_plate_text x).length) :
    selStep (some b) x = some (mkPlateResult x (mkRat 8 10)) := by
  rw [QualifiesOCR] at hq
  simp [selStep, hq, hle]

theorem selStep_some_keep (b : PlateResult) (x : String) (hq : QualifiesOCR x)
    (hgt : ¬(b.raw_text.length ≤ (normalize_plate_text x).length)) :
    selStep (some b) x = some b := by
  rw [QualifiesOCR] at hq
  simp [selStep, hq, hgt]

/-- A non-`none` scan state never equals `none`, and some list member
qualifying refutes the right side too. -/
theorem selSome_none_iff {α : Type} (a : α) {l : List String} {m : String}
    (hm : m ∈ l) (hqm : QualifiesOCR m) :
    (some a = none ↔ ∀ t ∈ l, ¬QualifiesOCR t) := by
  constructor
  · intro h; cases h
  · intro hall; exact absurd hqm (hall m hm)

/-- Behaviour of the candidate fold of `recognize_plate_from_image`: it is
`none` exactly when no candidate qualifies, and otherwise returns the result
of a qualifying candidate of maximal normalized length — among those, the
last encountered (the replacement test is `>=`). -/
theorem foldl_selStep_spec (l : List String) :
    (l.foldl selStep none = none ↔ ∀ t ∈ l, ¬QualifiesOCR t) ∧
    (∀ r, l.foldl selStep none = some r →
      ∃ l1 t l2, l = l1 ++ t :: l2 ∧ QualifiesOCR t ∧ r = mkPlateResult t (mkRat 8 10) ∧
        (∀ u ∈ l1, QualifiesOCR u →
          (normalize_plate_text u).length ≤ (normalize_plate_text t).length) ∧
        (∀ u ∈ l2, QualifiesOCR u →
          (normalize_plate_text u).length < (normalize_plate_text t).length)) := by
  induction l using List.reverseRecOn with
  | nil =>
    refine ⟨by simp, ?_⟩
    intro r hr
    cases hr
  | append_singleton xs x ih =>
    have hfold : (xs ++ [x]).foldl selStep none = selStep (xs.foldl selStep none) x := by
      rw [List.foldl_append, List.foldl_cons, List.foldl_nil]
    cases hacc : xs.foldl selStep none with
    | none =>
      have hnone := ih.1.mp hacc
      by_cases hq : QualifiesOCR x
      · have hstep : (xs ++ [x]).foldl selStep none = some (mkPlateResult x (mkRat 8 10)) := by
          rw [hfold, hacc, selStep_none_qual x hq]
        refine ⟨?_, ?_⟩
        · rw [hstep]
          exact selSome_none_iff _ (List.mem_append.mpr (Or.inr (List.mem_singleton.mpr rfl))) hq
        · intro r hr
          rw [hstep] at hr
          injection hr with hr
          refine ⟨xs, x, [], by simp, hq, hr.symm, ?_, by simp⟩
          intro u hu hqu
          exact absurd hqu (hnone u hu)
      · have hstep : (xs ++ [x]).foldl selStep none = none := by
          rw [hfold, hacc, selStep_not_qual none x hq]
        refine ⟨?_, ?_⟩
        · rw [hstep]
          simp only [true_iff]
          intro t ht
          rcases List.mem_append.mp ht with h1 | h2
          · exact hnone t h1
          · rw [List.mem_singleton] at h2
            subst h2
            exact hq
        · intro r hr
          rw [hstep] at hr
          cases hr
    | some b =>
      obtain ⟨l1, t, l2, happ, hqt, hb, hle1, hlt2⟩ := ih.2 b hacc
      have hbraw : b.raw_text = normalize_plate_text t := by rw [hb, mkPlateResult_raw]
      have htmem : t ∈ xs ++ [x] := by
        rw [happ]
        exact List.mem_append.mpr (Or.inl (List.mem_append.mpr
          (Or.inr (List.mem_cons_self t l2))))
      by_cases hq : QualifiesOCR x
      · by_cases hle : b.raw_text.length ≤ (normalize_plate_text x).length
        · have htx : (normalize_plate_text t).length ≤ (normalize_plate_text x).length := by
            rw [hbraw] at hle
            exact hle
          have hstep : (xs ++ [x]).foldl selStep none =
              some (mkPlateResult x (mkRat 8 10)) := by
            rw [hfold, hacc, selStep_some_replace b x hq hle]
          refine ⟨?_, ?_⟩
          · rw [hstep]
            exact selSome_none_iff _
              (List.mem_append.mpr (Or.inr (List.mem_singleton.mpr rfl))) hq
          · intro r hr
            rw [hstep] at hr
            injection hr with hr
            refine ⟨xs, x, [], by simp, hq, hr.symm, ?_, by simp⟩
            intro u hu hqu
            rw [happ] at hu
            rcases List.mem_append.mp hu with h1 | h2
            · exact le_trans (hle1 u h1 hqu) htx
            · rcases List.mem_cons.mp h2 with rfl | h3
              · exact htx
              · exact le_trans (le_of_lt (hlt2 u h3 hqu)) htx
        · have hxt : (normalize_plate_text x).length < (normalize_plate_text t).length := by
            rw [hbraw] at hle
            omega
          have hstep : (xs ++ [x]).foldl selStep none = some b := by
            rw [hfold, hacc, selStep_some_keep b x hq hle]
          refine ⟨?_, ?_⟩
          · rw [hstep]
            exact selSome_none_iff _ htmem hqt
          · intro r hr
            rw [hstep] at hr
            injection hr with hr
            subst hr
            refine ⟨l1, t, l2 ++ [x], by rw [happ]; simp, hqt, hb, hle1, ?_⟩
            intro u hu hqu
            rcases List.mem_append.mp hu with h2 | hx
            · exact hlt2 u h2 hqu
            · rw [List.mem_singleton] at hx
              subst hx
              exact hxt
      · have hstep : (xs ++ [x]).foldl selStep none = some b := by
          rw [hfold, hacc, selStep_not_qual _ x hq]
        refine ⟨?_, ?_⟩
        · rw [hstep]
          exact selSome_none_iff _ htmem hqt
        · intro r hr
          rw [hstep] at hr
          injection hr with hr
          subst hr
          refine ⟨l1, t, l2 ++ [x], by rw [happ]; simp, hqt, hb, hle1, ?_⟩
          intro u hu hqu
          rcases List.mem_append.mp hu with h2 | hx
          · exact hlt2 u h2 hqu
          · rw [List.mem_singleton] at hx
            subst hx
            exact absurd hqu hq

/-- C6 counterexample: two candidates whose OCR texts normalize to the same
length — the selector keeps the SECOND (later) one, not the first: the
replacement test `len(text) >= len(best.raw_text)` lets a tying later
candidate displace the earlier, larger-area region. -/
theorem region_tie_keeps_last :
    recognize_plate_from_image ["AAA1111", "BBB2222"] "" =
      some (mkPlateResult "BBB2222" (mkRat 8 10)) ∧
    mkPlateResult "BBB2222" (mkRat 8 10) ≠ mkPlateResult "AAA1111" (mkRat 8 10) ∧
    (normalize_plate_text "AAA1111").length = (normalize_plate_text "BBB2222").length := by
  decide

/-- C6 amended: among the candidates whose OCR text normalizes to length ≥ 6
the selector keeps a reading of maximal normalized length, and on a length
tie the LAST encountered candidate wins (not the first); the whole-image
fallback, at confidence 0.5 instead of 0.8, is used only when no candidate
qualifies. -/
theorem recognize_plate_selection (roiTexts : List String) (fullText : String) :
    ((∀ t ∈ roiTexts, ¬QualifiesOCR t) →
      recognize_plate_from_image roiTexts fullText =
        (if QualifiesOCR fullText then some (mkPlateResult fullText (mkRat 1 2)) else none)) ∧
    ((∃ t ∈ roiTexts, QualifiesOCR t) →
      ∃ l1 t l2, roiTexts = l1 ++ t :: l2 ∧ QualifiesOCR t ∧
        recognize_plate_from_image roiTexts fullText =
          some (mkPlateResult t (mkRat 8 10)) ∧
        (∀ u ∈ l1, QualifiesOCR u →
          (normalize_plate_text u).length ≤ (normalize_plate_text t).length) ∧
        (∀ u ∈ l2, QualifiesOCR u →
          (normalize_plate_text u).length < (normalize_plate_text t).length)) ∧
    (mkRat 1 2 : ℚ) < mkRat 8 10 := by
  refine ⟨?_, ?_, by decide⟩
  · intro hall
    have hnone : roiTexts.foldl selStep none = none := (foldl_selStep_spec roiTexts).1.mpr hall
    rw [recognize_plate_from_image, hnone]
    by_cases hf : QualifiesOCR fullText
    · rw [if_pos hf]
      rw [QualifiesOCR] at hf
      simp [hf]
    · rw [if_neg hf]
      rw [QualifiesOCR] at hf
      simp [hf]
  · rintro ⟨t0, ht0, hq0⟩
    cases hacc : roiTexts.foldl selStep none with
    | none => exact absurd hq0 ((foldl_selStep_spec roiTexts).1.mp hacc t0 ht0)
    | some b =>
      obtain ⟨l1, t, l2, happ, hqt, hb, hle1, hlt2⟩ := (foldl_selStep_spec roiTexts).2 b hacc
      refine ⟨l1, t, l2, happ, hqt, ?_, hle1, hlt2⟩
      rw [recognize_plate_from_image, hacc, hb]

theorem faceStep_none_elig (embedding : List ℚ) (tolerance : ℚ)
    (row : Nat × String × String) (st : List ℚ)
    (hd : str_to_embedding row.2.2 = some st)
    (hle : sqLe (distSq st embedding) tolerance = true) :
    faceStep embedding tolerance none row =
      some { person_id := row.1, name := row.2.1,
             distanceSq := distSq st embedding, matched := true } := by
  rw [faceStep, hd]
  simp [hle]

theorem faceStep_none_inelig (embedding : List ℚ) (tolerance : ℚ)
    (row : Nat × String × String) (st : List ℚ)
    (hd : str_to_embedding row.2.2 = some st)
    (hle : sqLe (distSq st embedding) tolerance = false) :
    faceStep embedding tolerance none row = none := by
  rw [faceStep, hd]
  simp [hle]

theorem faceStep_some_take (embedding : List ℚ) (tolerance : ℚ) (b : FaceMatch)
    (row : Nat × String × String) (st : List ℚ)
    (hd : str_to_embedding row.2.2 = some st)
    (hle : sqLe (distSq st embedding) tolerance = true)
    (hlt : qlt (distSq st embedding) b.distanceSq = true) :
    faceStep embedding tolerance (some b) row =
      some { person_id := row.1, name := row.2.1,
             distanceSq := distSq st embedding, matched := true } := by
  rw [faceStep, hd]
  simp [hle, hlt]

theorem faceStep_some_keep (embedding : List ℚ) (tolerance : ℚ) (b : FaceMatch)
    (row : Nat × String × String) (st : List ℚ)
    (hd : str_to_embedding row.2.2 = some st)
    (hcond : (sqLe (distSq st embedding) tolerance &&
      qlt (distSq st embedding) b.distanceSq) = false) :
    faceStep embedding tolerance (some b) row = some b := by
  rw [faceStep, hd]
  simp only [Bool.and_eq_false_iff] at hcond
  rcases hcond with h | h <;> simp [h]

/-- A non-`none` scan state refutes both sides of the emptiness
characterization once some row is eligible. -/
theorem faceSome_none_iff (embedding : List ℚ) (tolerance : ℚ) (a : FaceMatch)
    {l : List (Nat × String × String)} {row : Nat × String × String} {st : List ℚ}
    (hm : row ∈ l) (hd : str_to_embedding row.2.2 = some st)
    (he : sqLe (distSq st embedding) tolerance = true) :
    (some a = none ↔ ∀ row' ∈ l, ∀ st', str_to_embedding row'.2.2 = some st' →
      sqLe (distSq st' embedding) tolerance = false) := by
  constructor
  · intro h; cases h
  · intro hall
    rw [hall row hm st hd] at he
    cases he

/-- Behaviour of the gallery fold of `compare_face_to_embeddings`: `none`
exactly when no decodable row is within tolerance; otherwise the match is an
eligible row whose squared distance is strictly below every earlier eligible
row's (ties keep the first: the replacement test is strict `<`) and at most
every later eligible row's. -/
theorem foldl_faceStep_spec (embedding : List ℚ) (tolerance : ℚ)
    (l : List (Nat × String × String)) :
    (l.foldl (faceStep embedding tolerance) none = none ↔
      ∀ row ∈ l, ∀ st, str_to_embedding row.2.2 = some st →
        sqLe (distSq st embedding) tolerance = false) ∧
    (∀ m, l.foldl (faceStep embedding tolerance) none = some m →
      ∃ l1 row l2 st, l = l1 ++ row :: l2 ∧ str_to_embedding row.2.2 = some st ∧
        m = { person_id := row.1, name := row.2.1,
              distanceSq := distSq st embedding, matched := true } ∧
        sqLe (distSq st embedding) tolerance = true ∧
        (∀ row' ∈ l1, ∀ st', str_to_embedding row'.2.2 = some st' →
          sqLe (distSq st' embedding) tolerance = true →
          distSq st embedding < distSq st' embedding) ∧
        (∀ row' ∈ l2, ∀ st', str_to_embedding row'.2.2 = some st' →
          sqLe (distSq st' embedding) tolerance = true →
          distSq st embedding ≤ distSq st' embedding)) := by
  induction l using List.reverseRecOn with
  | nil =>
    refine ⟨by simp, ?_⟩
    intro m hm
    cases hm
  | append_singleton xs x ih =>
    have hfold : (xs ++ [x]).foldl (faceStep embedding tolerance) none =
        faceStep embedding tolerance (xs.foldl (faceStep embedding tolerance) none) x := by
      rw [List.foldl_append, List.foldl_cons, List.foldl_nil]
    cases hacc : xs.foldl (faceStep embedding tolerance) none with
    | none =>
      have hno := ih.1.mp hacc
      cases hd : str_to_embedding x.2.2 with
      | none =>
        have hstep : (xs ++ [x]).foldl (faceStep embedding tolerance) none = none := by
          rw [hfold, hacc, faceStep_skip embedding tolerance none x hd]
        refine ⟨?_, ?_⟩
        · rw [hstep]
          refine ⟨fun _ => ?_, fun _ => rfl⟩
          intro row hrow st hst
          rcases List.mem_append.mp hrow with h1 | h2
          · exact hno row h1 st hst
          · rw [List.mem_singleton] at h2
            subst h2
            rw [hd] at hst
            cases hst
        · intro m hm
          rw [hstep] at hm
          cases hm
      | some st =>
        cases hle : sqLe (distSq st embedding) tolerance with
        | true =>
          have hstep : (xs ++ [x]).foldl (faceStep embedding tolerance) none =
              some { person_id := x.1, name := x.2.1,
                     distanceSq := distSq st embedding, matched := true } := by
            rw [hfold, hacc, faceStep_none_elig embedding tolerance x st hd hle]
          refine ⟨?_, ?_⟩
          · rw [hstep]
            exact faceSome_none_iff embedding tolerance _
              (List.mem_append.mpr (Or.inr (List.mem_singleton.mpr rfl))) hd hle
          · intro m hm
            rw [hstep] at hm
            injection hm with hm
            refine ⟨xs, x, [], st, by simp, hd, hm.symm, hle, ?_, by simp⟩
            intro row' h1 st' hst' hle'
            rw [hno row' h1 st' hst'] at hle'
            cases hle'
        | false =>
          have hstep : (xs ++ [x]).foldl (faceStep embedding tolerance) none = none := by
            rw [hfold, hacc, faceStep_none_inelig embedding tolerance x st hd hle]
          refine ⟨?_, ?_⟩
          · rw [hstep]
            refine ⟨fun _ => ?_, fun _ => rfl⟩
            intro row hrow st' hst'
            rcases List.mem_append.mp hrow with h1 | h2
            · exact hno row h1 st' hst'
            · rw [List.mem_singleton] at h2
              subst h2
              rw [hd] at hst'
              injection hst' with hst'
              subst hst'
              exact hle
          · intro m hm
            rw [hstep] at hm
            cases hm
    | some b =>
      obtain ⟨l1, row, l2, st, happ, hdr, hbm, hbe, hl1, hl2⟩ := ih.2 b hacc
      have hbdist : b.distanceSq = distSq st embedding := by rw [hbm]
      have hrowmem : row ∈ xs ++ [x] := by
        rw [happ]
        exact List.mem_append.mpr (Or.inl (List.mem_append.mpr
          (Or.inr (List.mem_cons_self row l2))))
      cases hd : str_to_embedding x.2.2 with
      | none =>
        have hstep : (xs ++ [x]).foldl (faceStep embedding tolerance) none = some b := by
          rw [hfold, hacc, faceStep_skip embedding tolerance (some b) x hd]
        refine ⟨?_, ?_⟩
        · rw [hstep]
          exact faceSome_none_iff embedding tolerance _ hrowmem hdr hbe
        · intro m hm
          rw [hstep] at hm
          injection hm with hm
          subst hm
          refine ⟨l1, row, l2 ++ [x], st, by rw [happ]; simp, hdr, hbm, hbe, hl1, ?_⟩
          intro row' h2 st' hst' hle'
          rcases List.mem_append.mp h2 with h3 | hx
          · exact hl2 row' h3 st' hst' hle'
          · rw [List.mem_singleton] at hx
            subst hx
            rw [hd] at hst'
            cases hst'
      | some stx =>
        cases hle : sqLe (distSq stx embedding) tolerance with
        | false =>
          have hstep : (xs ++ [x]).foldl (faceStep embedding tolerance) none = some b := by
            rw [hfold, hacc]
            exact faceStep_some_keep embedding tolerance b x stx hd (by simp [hle])
          refine ⟨?_, ?_⟩
          · rw [hstep]
            exact faceSome_none_iff embedding tolerance _ hrowmem hdr hbe
          · intro m hm
            rw [hstep] at hm
            injection hm with hm
            subst hm
            refine ⟨l1, row, l2 ++ [x], st, by rw [happ]; simp, hdr, hbm, hbe, hl1, ?_⟩
            intro row' h2 st' hst' hle'
            rcases List.mem_append.mp h2 with h3 | hx
            · exact hl2 row' h3 st' hst' hle'
            · rw [List.mem_singleton] at hx
              subst hx
              rw [hd] at hst'
              injection hst' with hst'
              subst hst'
              rw [hle] at hle'
              cases hle'
        | true =>
          cases hlt : qlt (distSq stx embedding) b.distanceSq with
          | true =>
            have hstep : (xs ++ [x]).foldl (faceStep embedding tolerance) none =
                some { person_id := x.1, name := x.2.1,
                       distanceSq := distSq stx embedding, matched := true } := by
              rw [hfold, hacc, faceStep_some_take embedding tolerance b x stx hd hle hlt]
            have hxlt : distSq stx embedding < distSq st embedding := by
              rw [hbdist] at hlt
              exact (qlt_iff _ _).mp hlt
            refine ⟨?_, ?_⟩
            · rw [hstep]
              exact faceSome_none_iff embedding tolerance _
                (List.mem_append.mpr (Or.inr (List.mem_singleton.mpr rfl))) hd hle
            · intro m hm
              rw [hstep] at hm
              injection hm with hm
              refine ⟨xs, x, [], stx, by simp, hd, hm.symm, hle, ?_, by simp⟩
              intro row' h1 st' hst' hle'
              have hge : distSq st embedding ≤ distSq st' embedding := by
                rw [happ] at h1
                rcases List.mem_append.mp h1 with h2 | h3
                · exact le_of_lt (hl1 row' h2 st' hst' hle')
                · rcases List.mem_cons.mp h3 with rfl | h4
                  · rw [hdr] at hst'
                    injection hst' with hst'
                    subst hst'
                    exact le_refl _
                  · exact hl2 row' h4 st' hst' hle'
              exact lt_of_lt_of_le hxlt hge
          | false =>
            have hstep : (xs ++ [x]).foldl (faceStep embedding tolerance) none = some b := by
              rw [hfold, hacc]
              exact faceStep_some_keep embedding tolerance b x stx hd (by simp [hlt])
            have hxge : distSq st embedding ≤ distSq stx embedding := by
              rw [hbdist] at hlt
              have : ¬(distSq stx embedding < distSq st embedding) := by
                intro hc
                rw [(qlt_iff _ _).mpr hc] at hlt
                cases hlt
              exact le_of_not_lt this
            refine ⟨?_, ?_⟩
            · rw [hstep]
              exact faceSome_none_iff embedding tolerance _ hrowmem hdr hbe
            · intro m hm
              rw [hstep] at hm
              injection hm with hm
              subst hm
              refine ⟨l1, row, l2 ++ [x], st, by rw [happ]; simp, hdr, hbm, hbe, hl1, ?_⟩
              intro row' h2 st' hst' hle'
              rcases List.mem_append.mp h2 with h3 | hx
              · exact hl2 row' h3 st' hst' hle'
              · rw [List.mem_singleton] at hx
                subst hx
                rw [hd] at hst'
                injection hst' with hst'
                subst hst'
                exact hxge

/-- The conclusion of claim C5 at one input.  `Real.sqrt (eucSq st embedding)`
is the Euclidean distance between the decoded stored embedding `st` and the
query (`eucSq` is the sum of squared coordinate differences): the matcher
returns a match iff some decodable gallery row is within tolerance; the
returned match decodes from a row of the gallery, carries `matched = true`
and that row's (squared) distance, is strictly closer than every earlier
eligible row (ties keep the first encountered in gallery order) and at least
as close as every eligible row of the gallery. -/
def FaceMatcherSpec (embedding : List ℚ) (stored : List (Nat × String × String))
    (tolerance : ℚ) : Prop :=
  (compare_face_to_embeddings embedding stored tolerance = none ↔
    ∀ row ∈ stored, ∀ st, str_to_embedding row.2.2 = some st →
      ¬(Real.sqrt ((eucSq st embedding : ℚ) : ℝ) ≤ (tolerance : ℝ))) ∧
  (∀ m, compare_face_to_embeddings embedding stored tolerance = some m →
    m.matched = true ∧
    ∃ l1 row l2 st, stored = l1 ++ row :: l2 ∧ str_to_embedding row.2.2 = some st ∧
      m.person_id = row.1 ∧ m.name = row.2.1 ∧ m.distanceSq = eucSq st embedding ∧
      Real.sqrt ((eucSq st embedding : ℚ) : ℝ) ≤ (tolerance : ℝ) ∧
      (∀ row' ∈ l1, ∀ st', str_to_embedding row'.2.2 = some st' →
        Real.sqrt ((eucSq st' embedding : ℚ) : ℝ) ≤ (tolerance : ℝ) →
        Real.sqrt ((eucSq st embedding : ℚ) : ℝ) <
          Real.sqrt ((eucSq st' embedding : ℚ) : ℝ)) ∧
      (∀ row' ∈ stored, ∀ st', str_to_embedding row'.2.2 = some st' →
        Real.sqrt ((eucSq st' embedding : ℚ) : ℝ) ≤ (tolerance : ℝ) →
        Real.sqrt ((eucSq st embedding : ℚ) : ℝ) ≤
          Real.sqrt ((eucSq st' embedding : ℚ) : ℝ)))

/-- C5: `compare_face_to_embeddings` finds the nearest gallery row within
tolerance, first-encountered on ties.  The hypotheses scope the claim: every
stored embedding string decodes (`hdecode`) and decodes to the query's
dimension (`hdim`) — on a dimension mismatch the source's
`face_distance` call raises instead of returning, so the claim only speaks
below these hypotheses (the proof itself holds without them). -/
theorem compare_face_spec (embedding : List ℚ) (stored : List (Nat × String × String))
    (tolerance : ℚ)
    (hdecode : ∀ row ∈ stored, (str_to_embedding row.2.2).isSome = true)
    (hdim : ∀ row ∈ stored, ((str_to_embedding row.2.2).getD []).length = embedding.length) :
    FaceMatcherSpec embedding stored tolerance := by
  have key : ∀ st : List ℚ, (sqLe (distSq st embedding) tolerance = true) ↔
      Real.sqrt ((eucSq st embedding : ℚ) : ℝ) ≤ (tolerance : ℝ) := by
    intro st
    rw [distSq_eq_eucSq]
    exact sqLe_iff_sqrt_le _ _ (eucSq_nonneg st embedding)
  have sqle : ∀ st st' : List ℚ, eucSq st embedding ≤ eucSq st' embedding →
      Real.sqrt ((eucSq st embedding : ℚ) : ℝ) ≤
        Real.sqrt ((eucSq st' embedding : ℚ) : ℝ) := by
    intro st st' h
    exact Real.sqrt_le_sqrt (by exact_mod_cast h)
  have sqlt : ∀ st st' : List ℚ, eucSq st embedding < eucSq st' embedding →
      Real.sqrt ((eucSq st embedding : ℚ) : ℝ) <
        Real.sqrt ((eucSq st' embedding : ℚ) : ℝ) := by
    intro st st' h
    exact Real.sqrt_lt_sqrt (by exact_mod_cast eucSq_nonneg st embedding)
      (by exact_mod_cast h)
  constructor
  · rw [compare_face_to_embeddings, (foldl_faceStep_spec embedding tolerance stored).1]
    constructor
    · intro hall row hrow st hst hc
      rw [← key st] at hc
      rw [hall row hrow st hst] at hc
      cases hc
    · intro hall row hrow st hst
      cases hb : sqLe (distSq st embedding) tolerance with
      | false => rfl
      | true => exact absurd ((key st).mp hb) (hall row hrow st hst)
  · intro m hm
    obtain ⟨l1, row, l2, st, happ, hdr, hbm, hbe, hl1, hl2⟩ :=
      (foldl_faceStep_spec embedding tolerance stored).2 m hm
    have hmm : m.matched = true := by rw [hbm]
    refine ⟨hmm, l1, row, l2, st, happ, hdr, by rw [hbm], by rw [hbm], ?_, (key st).mp hbe,
      ?_, ?_⟩
    · rw [hbm]
      exact distSq_eq_eucSq st embedding
    · intro row' h1 st' hst' hle'
      apply sqlt
      rw [← distSq_eq_eucSq, ← distSq_eq_eucSq]
      exact hl1 row' h1 st' hst' ((key st').mpr hle')
    · intro row' hrow' st' hst' hle'
      have hle'' := (key st').mpr hle'
      rw [happ] at hrow'
      rcases List.mem_append.mp hrow' with h1 | h2
      · exact le_of_lt (sqlt st st' (by
          rw [← distSq_eq_eucSq, ← distSq_eq_eucSq]
          exact hl1 row' h1 st' hst' hle''))
      · rcases List.mem_cons.mp h2 with rfl | h3
        · rw [hdr] at hst'
          injection hst' with hst'
          subst hst'
          exact le_refl _
        · exact sqle st st' (by
            rw [← distSq_eq_eucSq, ← distSq_eq_eucSq]
            exact hl2 row' h3 st' hst' hle'')

/-- Witness for C5 at a concrete gallery: one row `(1, "Ana", "0")` whose
stored embedding decodes to `[0]`, query `[0]`, tolerance 1. -/
theorem compare_face_spec_witness : FaceMatcherSpec [0] [(1, "Ana", "0")] 1 :=
  compare_face_spec [0] [(1, "Ana", "0")] 1 (by decide) (by decide)
